import Mathlib

/-!
Shallow embedding of `src/convert_p8.py` (`convert_p8_to_header`), the
PICO-8 cartridge-to-C-header converter, together with proofs about it.

The document content is modelled as `List Char`.  The character-level
helpers follow CPython's tables (3.11): `isStripSpc` is the whitespace
set of `str.strip()` / `str.isspace()`; `isSpc` is the narrower C-locale
whitespace set that `int(s, base)` skips around ASCII text (CPython's
`Py_ISSPACE`); `hexVal` models `int(c, 16)` for a single character,
including the Unicode decimal digits the parse accepts; `pyInt2` models
`int(t, 16)` for two-character tokens.
-/

set_option maxRecDepth 4000

namespace ConvertP8

/-- Characters of a string literal, the base representation for text. -/
def str (s : String) : List Char := s.toList

/-- The C-locale whitespace set `{\t, \n, \v, \f, \r, space}`: exactly the
characters CPython's `int(s, base)` skips at the ends of the ASCII text
(its `Py_ISSPACE`; note `int('\x1c5', 16)` raises, so `\x1c`-`\x1f` are
not in this set although `str.strip()` removes them). -/
def isSpc (c : Char) : Bool :=
  c.toNat = 32 || c.toNat = 9 || c.toNat = 10 || c.toNat = 11 || c.toNat = 12 || c.toNat = 13

/-- The whitespace set of Python `str.strip()` and `str.isspace()`
(CPython `Py_UNICODE_ISSPACE`): `\t\n\v\f\r`, `\x1c`-`\x1f`, space, NEL,
NBSP, and the Unicode space separators. -/
def isStripSpc (c : Char) : Bool :=
  (9 ≤ c.toNat && c.toNat ≤ 13) || (28 ≤ c.toNat && c.toNat ≤ 32) ||
  c.toNat = 0x85 || c.toNat = 0xa0 || c.toNat = 0x1680 ||
  (0x2000 ≤ c.toNat && c.toNat ≤ 0x200a) ||
  c.toNat = 0x2028 || c.toNat = 0x2029 || c.toNat = 0x202f ||
  c.toNat = 0x205f || c.toNat = 0x3000

/-- Python `s.strip()`: remove `str.strip()`-whitespace from both ends. -/
def pstrip (s : List Char) : List Char :=
  ((s.dropWhile isStripSpc).reverse.dropWhile isStripSpc).reverse

/-- Python `line.startswith('__')`. -/
def startsUU : List Char → Bool
  | '_' :: '_' :: _ => true
  | _ => false

/-- `pat` occurs at the head of `s`. -/
def prefixOf : List Char → List Char → Bool
  | [], _ => true
  | _ :: _, [] => false
  | a :: as, b :: bs => a == b && prefixOf as bs

/-- Model of Python `content.find(pat)` restricted to a found/not-found
answer: index of the first occurrence of `pat` as a substring, anywhere in
`s` (not only at line starts), or `none`. -/
def strFind (s pat : List Char) : Option Nat :=
  if prefixOf pat s then some 0
  else
    match s with
    | [] => none
    | _ :: t => (strFind t pat).map (fun n => n + 1)

/-- Python `content.find(pat)` with its `-1` sentinel, as used by the source. -/
def findIdx (s pat : List Char) : Int :=
  match strFind s pat with
  | some n => (n : Int)
  | none => -1

/-- Python slice `s[a:b]` for the nonnegative bounds arising in the source. -/
def pySlice (s : List Char) (a b : Int) : List Char :=
  (s.drop a.toNat).take (b.toNat - a.toNat)

/-- The `__gfx__` marker. -/
def gfxMark : List Char := str "__gfx__"

/-- The `__map__` marker. -/
def mapMark : List Char := str "__map__"

/-- The `__label__` marker. -/
def labelMark : List Char := str "__label__"

/-- The `__sfx__` marker. -/
def sfxMark : List Char := str "__sfx__"

/-- Source line 11: `gfx_start = content.find('__gfx__')`. -/
def gfx_start (content : List Char) : Int := findIdx content gfxMark

/-- Source line 12: `map_start = content.find('__map__')`. -/
def map_start (content : List Char) : Int := findIdx content mapMark

/-- Source line 13: `label_start = content.find('__label__')`. -/
def label_start (content : List Char) : Int := findIdx content labelMark

/-- Source line 14: `sfx_start = content.find('__sfx__')`. -/
def sfx_start (content : List Char) : Int := findIdx content sfxMark

/-- Source line 24:
`gfx_end = label_start if label_start != -1 and label_start < map_start else map_start`. -/
def gfx_end (content : List Char) : Int :=
  if label_start content ≠ -1 ∧ label_start content < map_start content then
    label_start content
  else map_start content

/-- Source line 29: `map_end = sfx_start if sfx_start != -1 else len(content)`. -/
def map_end (content : List Char) : Int :=
  if sfx_start content ≠ -1 then sfx_start content else (content.length : Int)

/-- Source line 25 (first half): `content[gfx_start:gfx_end]`. -/
def gfxRawSlice (content : List Char) : List Char :=
  pySlice content (gfx_start content) (gfx_end content)

/-- Source line 30 (first half): `content[map_start:map_end]`. -/
def mapRawSlice (content : List Char) : List Char :=
  pySlice content (map_start content) (map_end content)

/-- Python truthiness filter from lines 26/31:
`if line.strip() and not line.startswith('__')`. -/
def keepLine (l : List Char) : Bool :=
  !(pstrip l).isEmpty && !startsUU l

/-- Lines 26/31: `[line.strip() for line in sec if line.strip() and not line.startswith('__')]`. -/
def filterLines (ls : List (List Char)) : List (List Char) :=
  (ls.filter keepLine).map pstrip

/-- Lines 25-26 / 30-31 applied to a raw slice: `raw.split('\n')[1:]`, filtered. -/
def sectionLines (raw : List Char) : List (List Char) :=
  filterLines ((raw.splitOn '\n').drop 1)

/-- Source lines 25-26: the filtered GFX section lines. -/
def gfx_section (content : List Char) : List (List Char) :=
  sectionLines (gfxRawSlice content)

/-- Source lines 30-31: the filtered MAP section lines. -/
def map_section (content : List Char) : List (List Char) :=
  sectionLines (mapRawSlice content)

/-- First code points of the blocks of ten Unicode decimal digits
(category Nd) that CPython's `int` parsing maps to their decimal value
(its `Py_UNICODE_TODECIMAL`; table of CPython 3.11 / Unicode 14).  Each
start `s` covers `s .. s+9` with values `0 .. 9`. -/
def ndBlockStarts : List Nat :=
  [0x30, 0x660, 0x6f0, 0x7c0, 0x966, 0x9e6, 0xa66, 0xae6, 0xb66, 0xbe6,
   0xc66, 0xce6, 0xd66, 0xde6, 0xe50, 0xed0, 0xf20, 0x1040, 0x1090, 0x17e0,
   0x1810, 0x1946, 0x19d0, 0x1a80, 0x1a90, 0x1b50, 0x1bb0, 0x1c40, 0x1c50,
   0xa620, 0xa8d0, 0xa900, 0xa9d0, 0xa9f0, 0xaa50, 0xabf0, 0xff10, 0x104a0,
   0x10d30, 0x11066, 0x110f0, 0x11136, 0x111d0, 0x112f0, 0x11450, 0x114d0,
   0x11650, 0x116c0, 0x11730, 0x118e0, 0x11950, 0x11c50, 0x11d50, 0x11da0,
   0x16a60, 0x16ac0, 0x16b50, 0x1d7ce, 0x1d7d8, 0x1d7e2, 0x1d7ec, 0x1d7f6,
   0x1e140, 0x1e2f0, 0x1e950, 0x1fbf0]

/-- Decimal value of a Unicode decimal digit, `none` for other characters. -/
def decDigitVal (c : Char) : Option Nat :=
  (ndBlockStarts.find? (fun s => decide (s ≤ c.toNat) && decide (c.toNat ≤ s + 9))).map
    (fun s => c.toNat - s)

/-- Model of Python `int(c, 16)` for a single character, `none` when the
parse raises `ValueError`.  Besides the ASCII hexadecimal digits the
parse accepts every Unicode decimal digit (with its decimal value, at
most 9): `int('٣', 16) = 3`. -/
def hexVal (c : Char) : Option Nat :=
  if 48 ≤ c.toNat ∧ c.toNat ≤ 57 then some (c.toNat - 48)
  else if 97 ≤ c.toNat ∧ c.toNat ≤ 102 then some (c.toNat - 87)
  else if 65 ≤ c.toNat ∧ c.toNat ≤ 70 then some (c.toNat - 55)
  else decDigitVal c

/-- `c` is an ASCII hexadecimal digit (`0-9`, `a-f`, `A-F`). -/
def isHexDigitB (c : Char) : Bool :=
  (48 ≤ c.toNat && c.toNat ≤ 57) || (97 ≤ c.toNat && c.toNat ≤ 102) ||
    (65 ≤ c.toNat && c.toNat ≤ 70)

/-- A character `int(t, 16)` treats as strippable whitespace around the
digits of a str token: the C-locale set for ASCII, while non-ASCII
whitespace is first transformed to a space by CPython's decimal-and-space
transform (`int('\xa0f', 16) = 15`, but `int('\x1c5', 16)` raises). -/
def isIntSpc (c : Char) : Bool :=
  isSpc c || (128 ≤ c.toNat && isStripSpc c)

/-- Model of Python `int(t, 16)` for a two-character token `t = c1c2`,
`none` when the parse raises `ValueError`.  Besides two digits, Python
also accepts a leading sign or a surrounding whitespace character next to
a single digit (`"+f"` is 15, `"-1"` is -1, `" 5"` and `"5 "` are 5);
everything else of length two is rejected. -/
def pyInt2 (c1 c2 : Char) : Option Int :=
  match hexVal c1, hexVal c2 with
  | some v1, some v2 => some ((16 * v1 + v2 : Nat) : Int)
  | _, _ =>
    if c1 = '+' then (hexVal c2).map (fun v => (v : Int))
    else if c1 = '-' then (hexVal c2).map (fun v => -(v : Int))
    else if isIntSpc c1 then (hexVal c2).map (fun v => (v : Int))
    else if isIntSpc c2 then (hexVal c1).map (fun v => (v : Int))
    else none

/-- Source lines 49-59 applied to one section line: truncate to 128
characters, decode each as a hex digit (0 on failure), pad on the right
with 0 up to 128 entries. -/
def pixelsOfRow (row : List Char) : List Nat :=
  let ps := (row.take 128).map (fun c => (hexVal c).getD 0)
  ps ++ List.replicate (128 - ps.length) 0

/-- The 128 pixel rows emitted by the two loops at source lines 49-72:
the first 128 section lines, decoded, followed by all-zero rows indexed
`len(gfx_section) .. 127`. -/
def pixelMatrix (content : List Char) : List (List Nat) :=
  ((gfx_section content).take 128).map pixelsOfRow ++
    List.replicate (128 - (gfx_section content).length) (List.replicate 128 0)

/-- Source lines 83-89 applied to one (re-stripped) line: scan two
characters at a time; each complete pair contributes its `int(·, 16)`
value, or 0 when the parse fails; a trailing unpaired character
contributes nothing. -/
def pairBytes : List Char → List Int
  | c1 :: c2 :: rest => ((pyInt2 c1 c2).getD 0) :: pairBytes rest
  | _ => []

/-- Source lines 82-89 applied to one map-section line (`row.strip()`
then the pair scan). -/
def lineBytes (row : List Char) : List Int := pairBytes (pstrip row)

/-- Source lines 80-89: all bytes decoded from the map section, in line
order. -/
def mapBytesRaw (content : List Char) : List Int :=
  ((map_section content).map lineBytes).flatten

/-- Source lines 92-93: `while len(map_bytes) < 0x1000: map_bytes.append(0)`. -/
def mapBytesPadded (content : List Char) : List Int :=
  mapBytesRaw content ++ List.replicate (4096 - (mapBytesRaw content).length) 0

/-- Source line 98: the slice `map_bytes[i:i+16]` for `i = 16*k`. -/
def mapChunk (content : List Char) (k : Nat) : List Int :=
  ((mapBytesPadded content).drop (16 * k)).take 16

/-- The byte values actually rendered into the map array, over all 256
chunks of the loop at source lines 97-102. -/
def mapEntries (content : List Char) : List Int :=
  ((List.range 256).map (mapChunk content)).flatten

/-- Decimal rendering of a natural number, as Python `str(n)`. -/
def natDec (n : Nat) : List Char := (Nat.repr n).toList

/-- Python `repr(i)` for an integer. -/
def intRepr (b : Int) : List Char :=
  if b < 0 then '-' :: natDec b.natAbs else natDec b.toNat

/-- Python `sep.join(parts)`. -/
def joinSep : List Char → List (List Char) → List Char
  | _, [] => []
  | _, [p] => p
  | sep, p :: q :: rest => p ++ sep ++ joinSep sep (q :: rest)

/-- Python `repr(bs)` for a list of integers: `[a, b, c]`. -/
def listRepr (bs : List Int) : List Char :=
  ('[' :: joinSep (str ", ") (bs.map intRepr)) ++ [']']

/-- Python `format(b, '02x')`: lowercase hex, zero-padded to overall width
2 (the sign of a negative value counts toward the width and precedes the
padding). -/
def pyHex02 (b : Int) : List Char :=
  if b < 0 then
    '-' :: (List.replicate (2 - 1 - (Nat.toDigits 16 b.natAbs).length) '0' ++
      Nat.toDigits 16 b.natAbs)
  else
    List.replicate (2 - (Nat.toDigits 16 b.toNat).length) '0' ++ Nat.toDigits 16 b.toNat

/-- Source line 98's value rendering: `f'0x{b:02x}'`. -/
def pyHexLit (b : Int) : List Char := '0' :: 'x' :: pyHex02 b

/-- The literal `0xhh` shape the spec requires of a map value: `0x`
followed by exactly two lowercase hexadecimal digits. -/
def isHexByteLit (s : List Char) : Bool :=
  match s with
  | '0' :: 'x' :: d1 :: d2 :: [] =>
    ((48 ≤ d1.toNat && d1.toNat ≤ 57) || (97 ≤ d1.toNat && d1.toNat ≤ 102)) &&
      ((48 ≤ d2.toNat && d2.toNat ≤ 57) || (97 ≤ d2.toNat && d2.toNat ≤ 102))
  | _ => false

/-- Source lines 61-64 for one row of decoded pixel values at row index
`k`: `'    {' + ','.join(pixels) + '}'`, a comma after every row but the
last (`row_idx < 127`), then the newline. -/
def renderRow (k : Nat) (ps : List Nat) : List Char :=
  str "    \x7b" ++ joinSep (str ",") (ps.map natDec) ++ str "\x7d" ++
    (if k < 127 then str "," else []) ++ str "\n"

/-- The pixel-row render loop, starting from row index `k`. -/
def rowsOut : Nat → List (List Nat) → List Char
  | _, [] => []
  | k, ps :: rest => renderRow k ps ++ rowsOut (k + 1) rest

/-- Source lines 49-64: `for row_idx, row in enumerate(gfx_section[:128])`,
decoding and rendering each line. -/
def gfxRowsOut : Nat → List (List Char) → List Char
  | _, [] => []
  | k, row :: rest => renderRow k (pixelsOfRow row) ++ gfxRowsOut (k + 1) rest

/-- Source lines 67-72 for one filler row index:
`'    {' + ','.join(['0'] * 128) + '}'` with the same comma rule. -/
def renderZeroRow (k : Nat) : List Char :=
  str "    \x7b" ++ joinSep (str ",") (List.replicate 128 (str "0")) ++ str "\x7d" ++
    (if k < 127 then str "," else []) ++ str "\n"

/-- Source lines 49-72: the whole pixel-array body, the enumerated data
loop followed by the zero-fill loop over `range(len(gfx_section), 128)`. -/
def pixelBody (content : List Char) : List Char :=
  gfxRowsOut 0 ((gfx_section content).take 128) ++
    ((List.range' (gfx_section content).length
        (128 - (gfx_section content).length)).map renderZeroRow).flatten

/-- Source lines 97-102 for one chunk index `k` (`i = 16*k`):
`'    ' + ','.join(f'0x{b:02x}' ...)`, a comma when `i + 16 < 0x1000`,
then the newline. -/
def mapLine (content : List Char) (k : Nat) : List Char :=
  str "    " ++ joinSep (str ",") ((mapChunk content k).map pyHexLit) ++
    (if 16 * k + 16 < 4096 then str "," else []) ++ str "\n"

/-- Source lines 97-102: the whole map-array body
(`for i in range(0, 0x1000, 16)`, written here as 256 chunk indices). -/
def mapBody (content : List Char) : List Char :=
  ((List.range 256).map (mapLine content)).flatten

/-- Source lines 36-105: the full text written to the output file. -/
def headerText (content : List Char) : List Char :=
  str "/*\n" ++
  str " * Hyperspace Game Data - PicoSystem Port\n" ++
  str " * Auto-generated from hyperspace.lua.p8\n" ++
  str " */\n\n" ++
  str "#ifndef HYPERSPACE_DATA_H\n" ++
  str "#define HYPERSPACE_DATA_H\n\n" ++
  str "#include <stdint.h>\n\n" ++
  str "// Spritesheet data (128x128 pixels, 4-bit palette indices)\n" ++
  str "static const uint8_t hyperspace_spritesheet[128][128] = \x7b\n" ++
  pixelBody content ++
  str "\x7d;\n\n" ++
  str "// Map memory data (4KB, contains mesh definitions)\n" ++
  str "static const uint8_t hyperspace_map[0x1000] = \x7b\n" ++
  mapBody content ++
  str "\x7d;\n\n" ++
  str "#endif // HYPERSPACE_DATA_H\n"

/-- Observable outcome of one run of `convert_p8_to_header` on a given
input text: the lines printed to standard output and to standard error,
the process exit status, and the text written to the output file (`none`
when the file is never created, opened or modified). -/
structure RunResult where
  stdoutLines : List (List Char)
  stderrLines : List (List Char)
  exitCode : Nat
  output : Option (List Char)
  deriving Repr, DecidableEq

/-- The whole program (source lines 6-112) on the content of the input
file.  The source reports errors with plain `print` (standard output) and
a bare `return`; the script then falls off the end of `__main__`, so the
process exit status is 0 on both paths.  Nothing is ever written to
standard error.  OS-level I/O failures are outside the model. -/
def runConvert (content outName : List Char) : RunResult :=
  if gfx_start content = -1 then
    ⟨[str "Error: __gfx__ section not found"], [], 0, none⟩
  else if map_start content = -1 then
    ⟨[str "Error: __map__ section not found"], [], 0, none⟩
  else
    ⟨[str "Found " ++ natDec (gfx_section content).length ++ str " GFX lines",
      str "Found " ++ natDec (map_section content).length ++ str " MAP lines",
      str "Map bytes extracted: " ++ natDec (mapBytesPadded content).length ++
        str " (first 16: " ++ listRepr ((mapBytesPadded content).take 16) ++ str ")",
      str "Generated " ++ outName],
     [], 0, some (headerText content)⟩

/-- Dropping a satisfied prefix twice is the same as dropping it once. -/
theorem dropWhile_idem (p : Char → Bool) (l : List Char) :
    (l.dropWhile p).dropWhile p = l.dropWhile p := by
  induction l with
  | nil => rfl
  | cons a t ih =>
    by_cases h : p a
    · simp [List.dropWhile_cons, h, ih]
    · simp [List.dropWhile_cons, h]

/-- Python strip is idempotent: re-stripping an already stripped string
changes nothing. -/
theorem pstrip_idem (s : List Char) : pstrip (pstrip s) = pstrip s := by
  have h1 : (pstrip s).reverse.dropWhile isStripSpc = (pstrip s).reverse := by
    unfold pstrip
    rw [List.reverse_reverse]
    exact dropWhile_idem isStripSpc _
  have h2 : (pstrip s).dropWhile isStripSpc = pstrip s := by
    cases hc : pstrip s with
    | nil => simp
    | cons a w =>
      obtain ⟨pre, hpre⟩ :=
        List.dropWhile_suffix (l := (s.dropWhile isStripSpc).reverse) isStripSpc
      obtain ⟨r, hr⟩ : ∃ r, pstrip s ++ r = s.dropWhile isStripSpc := by
        refine ⟨pre.reverse, ?_⟩
        have := congrArg List.reverse hpre
        simpa [pstrip, List.reverse_append] using this
      have hat : s.dropWhile isStripSpc = a :: (w ++ r) := by rw [← hr, hc]; rfl
      have hne : s.dropWhile isStripSpc ≠ [] := by rw [hat]; simp
      have hhead := List.head_dropWhile_not isStripSpc s hne
      have hna : isStripSpc a = false := by
        have : (s.dropWhile isStripSpc).head hne = a := by
          simp [hat]
        rwa [this] at hhead
      simp [hc, List.dropWhile_cons, hna]
  calc pstrip (pstrip s)
      = (((pstrip s).dropWhile isStripSpc).reverse.dropWhile isStripSpc).reverse := rfl
    _ = ((pstrip s).reverse.dropWhile isStripSpc).reverse := by rw [h2]
    _ = (pstrip s).reverse.reverse := by rw [h1]
    _ = pstrip s := List.reverse_reverse _

/-- The line filter keeps the relative order of the (trimmed) input
lines: its output is a sublist of the trimmed input. -/
theorem filterLines_sublist (ls : List (List Char)) :
    (filterLines ls).Sublist (ls.map pstrip) :=
  List.Sublist.map pstrip (List.filter_sublist ls)

/-- Every line the filter emits is fully trimmed. -/
theorem filterLines_trimmed (ls : List (List Char)) :
    ∀ out ∈ filterLines ls, pstrip out = out := by
  intro out hout
  simp only [filterLines, List.mem_map] at hout
  obtain ⟨l, _, rfl⟩ := hout
  exact pstrip_idem l

/-- The filter's drop condition, in the spec's terms: a line is dropped
exactly when it is empty after trimming or itself starts with `__`. -/
theorem keepLine_false_iff (l : List Char) :
    keepLine l = false ↔ (pstrip l = [] ∨ startsUU l = true) := by
  unfold keepLine
  cases hp : (pstrip l).isEmpty <;> cases hs : startsUU l <;>
    simp_all [List.isEmpty_iff]

/-- The pair scan produces one byte per complete two-character pair. -/
theorem pairBytes_length : ∀ cs : List Char, (pairBytes cs).length = cs.length / 2
  | [] => rfl
  | [_] => by simp [pairBytes]
  | c1 :: c2 :: rest => by
    have ih := pairBytes_length rest
    simp only [pairBytes, List.length_cons, ih]
    omega

/-- On a line with an odd number of characters the pair scan never looks
at the final character: it decodes exactly as the line without it. -/
theorem pairBytes_dropLast : ∀ cs : List Char, cs.length % 2 = 1 →
    pairBytes cs = pairBytes cs.dropLast
  | [], h => by simp at h
  | [_], _ => by simp [pairBytes]
  | c1 :: c2 :: rest, h => by
    cases rest with
    | nil => simp at h
    | cons r rs =>
      have ih := pairBytes_dropLast (r :: rs) (by simp at h ⊢; omega)
      simp only [pairBytes, List.dropLast, ih]

/-- `strFind` finds the first occurrence of the pattern as a substring:
the pattern matches at the returned index and at no smaller index
(in particular a match needs not start a line). -/
theorem strFind_first : ∀ (s pat : List Char) (i : Nat), strFind s pat = some i →
    prefixOf pat (s.drop i) = true ∧ ∀ j, j < i → prefixOf pat (s.drop j) = false := by
  intro s
  induction s with
  | nil =>
    intro pat i h
    unfold strFind at h
    split at h
    · next hp => cases h; exact ⟨hp, by omega⟩
    · simp at h
  | cons a t ih =>
    intro pat i h
    unfold strFind at h
    split at h
    · next hp => cases h; exact ⟨hp, by omega⟩
    · next hp =>
      simp only [Option.map_eq_some'] at h
      obtain ⟨n, hn, rfl⟩ := h
      obtain ⟨h1, h2⟩ := ih pat n hn
      refine ⟨by simpa using h1, ?_⟩
      intro j hj
      cases j with
      | zero => simpa using Bool.not_eq_true _ |>.mp hp
      | succ j =>
        have := h2 j (by omega)
        simpa using this

/-- A Unicode decimal digit's value is at most 9. -/
theorem decDigitVal_le (c : Char) (d : Nat) (h : decDigitVal c = some d) : d ≤ 9 := by
  unfold decDigitVal at h
  cases hf : ndBlockStarts.find? (fun s => decide (s ≤ c.toNat) && decide (c.toNat ≤ s + 9)) with
  | none => rw [hf] at h; cases h
  | some s =>
    have hp := List.find?_some hf
    simp only [Bool.and_eq_true, decide_eq_true_eq] at hp
    rw [hf] at h
    simp only [Option.map_some', Option.some.injEq] at h
    omega

/-- A Unicode decimal digit's value (with the 0 default) is at most 9. -/
theorem decDigitValD_le (c : Char) : (decDigitVal c).getD 0 ≤ 9 := by
  cases h : decDigitVal c with
  | none => simp
  | some d => simpa using decDigitVal_le c d h

/-- A decoded digit (with the 0-on-failure default) is at most 15. -/
theorem hexValD_le (c : Char) : (hexVal c).getD 0 ≤ 15 := by
  unfold hexVal
  split
  · next h => simp; omega
  · split
    · next h => simp; omega
    · split
      · next h => simp; omega
      · exact le_trans (decDigitValD_le c) (by omega)

/-- An ASCII hex digit decodes successfully, to a value at most 15. -/
theorem hexVal_of_digit (c : Char) (h : isHexDigitB c = true) :
    ∃ v, hexVal c = some v ∧ v ≤ 15 := by
  unfold isHexDigitB at h
  unfold hexVal
  split
  · next hc => exact ⟨_, rfl, by omega⟩
  · split
    · next hc => exact ⟨_, rfl, by omega⟩
    · split
      · next hc => exact ⟨_, rfl, by omega⟩
      · next h1 h2 h3 =>
        exfalso
        simp only [Bool.or_eq_true, Bool.and_eq_true, decide_eq_true_eq] at h
        rcases h with (h | h) | h
        · exact h1 ⟨h.1, h.2⟩
        · exact h2 ⟨h.1, h.2⟩
        · exact h3 ⟨h.1, h.2⟩

/-- Every pixel row coming out of the row decoder has exactly 128 entries. -/
theorem pixelsOfRow_length (row : List Char) : (pixelsOfRow row).length = 128 := by
  simp only [pixelsOfRow, List.length_append, List.length_map, List.length_take,
    List.length_replicate]
  omega

/-- Every entry of a decoded pixel row is at most 15. -/
theorem pixelsOfRow_le (row : List Char) : ∀ v ∈ pixelsOfRow row, v ≤ 15 := by
  intro v hv
  simp only [pixelsOfRow, List.mem_append, List.mem_map, List.mem_replicate] at hv
  rcases hv with ⟨c, _, rfl⟩ | ⟨_, rfl⟩
  · exact hexValD_le c
  · omega

/-- The emitted pixel matrix always has exactly 128 rows. -/
theorem pixelMatrix_length (content : List Char) : (pixelMatrix content).length = 128 := by
  simp only [pixelMatrix, List.length_append, List.length_map, List.length_take,
    List.length_replicate]
  omega

/-- Every row of the emitted pixel matrix has exactly 128 entries. -/
theorem pixelMatrix_rows (content : List Char) :
    ∀ r ∈ pixelMatrix content, r.length = 128 := by
  intro r hr
  simp only [pixelMatrix, List.mem_append, List.mem_map, List.mem_replicate] at hr
  rcases hr with ⟨row, _, rfl⟩ | ⟨_, rfl⟩
  · exact pixelsOfRow_length row
  · simp

/-- Every entry of the emitted pixel matrix is at most 15. -/
theorem pixelMatrix_le (content : List Char) :
    ∀ r ∈ pixelMatrix content, ∀ v ∈ r, v ≤ 15 := by
  intro r hr
  simp only [pixelMatrix, List.mem_append, List.mem_map, List.mem_replicate] at hr
  rcases hr with ⟨row, _, rfl⟩ | ⟨_, rfl⟩
  · exact pixelsOfRow_le row
  · intro v hv
    simp only [List.mem_replicate] at hv
    omega

/-- Within the first 128 characters of a row, entry `j` of the decoded
pixel row is the decoded character at position `j`. -/
theorem pixelsOfRow_entry (row : List Char) (j : Nat) (c : Char) (hj : j < 128)
    (hc : row[j]? = some c) :
    (pixelsOfRow row)[j]? = some ((hexVal c).getD 0) := by
  have hjr : j < row.length := by
    by_contra hcon
    rw [List.getElem?_eq_none (by omega)] at hc
    cases hc
  have hlen : j < ((row.take 128).map (fun c => (hexVal c).getD 0)).length := by
    simp only [List.length_map, List.length_take]
    omega
  simp only [pixelsOfRow]
  rw [List.getElem?_append_left hlen, List.getElem?_map, List.getElem?_take_of_lt hj, hc]
  rfl

/-- At positions past the end of the row (but below 128) the decoded
pixel row is zero-padded. -/
theorem pixelsOfRow_pad (row : List Char) (j : Nat) (hj : j < 128)
    (hlen : row.length ≤ j) :
    (pixelsOfRow row)[j]? = some 0 := by
  have hplen : ((row.take 128).map (fun c => (hexVal c).getD 0)).length = row.length := by
    simp only [List.length_map, List.length_take]
    omega
  simp only [pixelsOfRow]
  rw [List.getElem?_append_right (by omega), hplen, List.getElem?_replicate]
  simp only [List.length_map, List.length_take] at *
  rw [if_pos (by omega)]

/-- The padded map byte list always has at least 4096 entries. -/
theorem mapBytesPadded_length (content : List Char) :
    4096 ≤ (mapBytesPadded content).length := by
  simp only [mapBytesPadded, List.length_append, List.length_replicate]
  omega

/-- Each of the 256 rendered map chunks holds exactly 16 byte values. -/
theorem mapChunk_length (content : List Char) (k : Nat) (hk : k < 256) :
    (mapChunk content k).length = 16 := by
  have := mapBytesPadded_length content
  simp only [mapChunk, List.length_take, List.length_drop]
  omega

/-- The rendered map values number exactly 4096. -/
theorem mapEntries_length (content : List Char) : (mapEntries content).length = 4096 := by
  unfold mapEntries
  rw [List.length_flatten, List.map_map]
  have hcongr : (List.range 256).map (List.length ∘ mapChunk content) =
      (List.range 256).map (fun _ => 16) := by
    apply List.map_congr_left
    intro k hk
    simp only [Function.comp_apply]
    exact mapChunk_length content k (List.mem_range.mp hk)
  rw [hcongr, List.map_const', List.sum_replicate, List.length_range]
  rfl

/-- On a token of two ASCII hex digits, the two-character parse yields
the base-16 value, a byte in the range [0, 255]. -/
theorem pyInt2_of_digits (c1 c2 : Char) (h1 : isHexDigitB c1 = true)
    (h2 : isHexDigitB c2 = true) :
    pyInt2 c1 c2 = some ((16 * (hexVal c1).getD 0 + (hexVal c2).getD 0 : Nat) : Int) ∧
      0 ≤ (pyInt2 c1 c2).getD 0 ∧ (pyInt2 c1 c2).getD 0 ≤ 255 := by
  obtain ⟨v1, hv1, hle1⟩ := hexVal_of_digit c1 h1
  obtain ⟨v2, hv2, hle2⟩ := hexVal_of_digit c2 h2
  have heq : pyInt2 c1 c2 = some ((16 * v1 + v2 : Nat) : Int) := by
    unfold pyInt2
    rw [hv1, hv2]
  refine ⟨by rw [heq, hv1, hv2]; rfl, ?_, ?_⟩
  · rw [heq]
    simp only [Option.getD_some]
    push_cast
    omega
  · rw [heq]
    simp only [Option.getD_some]
    push_cast
    omega

/-- `findIdx` reports `-1` exactly when the marker is absent. -/
theorem findIdx_eq_neg_one_iff (s pat : List Char) :
    findIdx s pat = -1 ↔ strFind s pat = none := by
  unfold findIdx
  cases h : strFind s pat with
  | none => simp
  | some n => simp

/-- `findIdx` agrees with `strFind` on found markers. -/
theorem findIdx_eq_of_some (s pat : List Char) (n : Nat) (h : strFind s pat = some n) :
    findIdx s pat = (n : Int) := by
  unfold findIdx
  rw [h]

/-- Rendering a concatenation of row blocks splits at the length of the
first block, with the row counter advanced accordingly. -/
theorem rowsOut_append (k : Nat) (xs ys : List (List Nat)) :
    rowsOut k (xs ++ ys) = rowsOut k xs ++ rowsOut (k + xs.length) ys := by
  induction xs generalizing k with
  | nil => simp [rowsOut]
  | cons p ps ih =>
    simp only [List.cons_append, rowsOut, List.length_cons, List.append_eq,
      ih (k + 1), List.append_assoc]
    rw [show k + (ps.length + 1) = k + 1 + ps.length by omega]

/-- The enumerated data loop renders exactly the decoded pixel rows. -/
theorem gfxRowsOut_eq (k : Nat) (rows : List (List Char)) :
    gfxRowsOut k rows = rowsOut k (rows.map pixelsOfRow) := by
  induction rows generalizing k with
  | nil => rfl
  | cons row rest ih => simp [gfxRowsOut, rowsOut, ih (k + 1)]

/-- A zero-fill row renders identically to a decoded all-zero row. -/
theorem renderZeroRow_eq (k : Nat) : renderZeroRow k = renderRow k (List.replicate 128 0) := by
  unfold renderZeroRow renderRow
  rw [List.map_replicate]
  rfl

/-- The zero-fill loop over `range(a, 128)` renders like the row loop on
that many all-zero rows starting at row index `a`. -/
theorem zeroLoop_eq : ∀ (n a : Nat),
    ((List.range' a n).map renderZeroRow).flatten =
      rowsOut a (List.replicate n (List.replicate 128 0))
  | 0, _ => rfl
  | n + 1, a => by
    rw [List.range'_succ, List.map_cons, List.flatten_cons, List.replicate_succ,
      renderZeroRow_eq, zeroLoop_eq n (a + 1)]
    rfl

/-- The two render loops of the source together emit exactly the 128 rows
of the pixel matrix, rendered in order starting at row index 0. -/
theorem pixelBody_eq_rowsOut (content : List Char) :
    pixelBody content = rowsOut 0 (pixelMatrix content) := by
  unfold pixelBody pixelMatrix
  rw [gfxRowsOut_eq, rowsOut_append, zeroLoop_eq]
  rcases Nat.le_total (gfx_section content).length 128 with hle | hge
  · have hmin : ((gfx_section content).take 128).length = (gfx_section content).length := by
      simp only [List.length_take]
      omega
    rw [List.length_map, hmin, Nat.zero_add]
  · have h0 : 128 - (gfx_section content).length = 0 := by omega
    rw [h0]
    rfl

/-- The comma condition of the map render loop, `i + 16 < 0x1000` for
`i = 16*k`, is exactly `k < 255`. -/
theorem mapLine_comma (content : List Char) (k : Nat) :
    mapLine content k =
      str "    " ++ joinSep (str ",") ((mapChunk content k).map pyHexLit) ++
        (if k < 255 then str "," else []) ++ str "\n" := by
  unfold mapLine
  by_cases hk : k < 255
  · rw [if_pos hk, if_pos (by omega : 16 * k + 16 < 4096)]
  · rw [if_neg hk, if_neg (by omega : ¬(16 * k + 16 < 4096))]

/-- Every value in [0, 255] renders as `0x` plus exactly two lowercase
hex digits. -/
theorem pyHexLit_byte_fin : ∀ n : Fin 256, isHexByteLit (pyHexLit ((n.val : Nat) : Int)) = true := by
  decide

/-- Lift of the previous fact to integers in [0, 255]. -/
theorem pyHexLit_byte (b : Int) (h0 : 0 ≤ b) (h1 : b ≤ 255) :
    isHexByteLit (pyHexLit b) = true := by
  have hlt : b.toNat < 256 := by omega
  have := pyHexLit_byte_fin ⟨b.toNat, hlt⟩
  simpa [Int.toNat_of_nonneg h0] using this

/-- All padded map bytes stay in [0, 255] when the raw decoded ones do
(the padding itself is zeros). -/
theorem mapBytesPadded_range (content : List Char)
    (hb : ∀ b ∈ mapBytesRaw content, 0 ≤ b ∧ b ≤ 255) :
    ∀ b ∈ mapBytesPadded content, 0 ≤ b ∧ b ≤ 255 := by
  intro b hbm
  simp only [mapBytesPadded, List.mem_append, List.mem_replicate] at hbm
  rcases hbm with h | ⟨_, rfl⟩
  · exact hb b h
  · omega

/-- Chunk membership: every value of a rendered chunk is a padded map byte. -/
theorem mapChunk_subset (content : List Char) (k : Nat) :
    ∀ b ∈ mapChunk content k, b ∈ mapBytesPadded content := by
  intro b hbm
  exact List.mem_of_mem_drop (List.mem_of_mem_take hbm)

/-- A flattened replicate of replicates is one big replicate. -/
theorem flatten_replicate_zero : ∀ n m : Nat,
    (List.replicate n (List.replicate m (0 : Int))).flatten = List.replicate (n * m) 0
  | 0, _ => by simp
  | n + 1, m => by
    rw [List.replicate_succ, List.flatten_cons, flatten_replicate_zero n m,
      show (n + 1) * m = m + n * m by ring, List.replicate_add]

/-- When no raw map bytes are decoded, all 4096 emitted values are zero. -/
theorem mapEntries_zero_of_empty (content : List Char) (h : mapBytesRaw content = []) :
    mapEntries content = List.replicate 4096 (0 : Int) := by
  have hpad : mapBytesPadded content = List.replicate 4096 (0 : Int) := by
    unfold mapBytesPadded
    rw [h]
    rfl
  have hchunk : ∀ k ∈ List.range 256, mapChunk content k = List.replicate 16 (0 : Int) := by
    intro k hk
    have hk' : k < 256 := List.mem_range.mp hk
    simp only [mapChunk, hpad, List.drop_replicate, List.take_replicate]
    rw [show min 16 (4096 - 16 * k) = 16 by omega]
  unfold mapEntries
  rw [List.map_congr_left hchunk, List.map_const', List.length_range,
    flatten_replicate_zero]

/-- Membership in a section gives an already-stripped line. -/
theorem map_section_trimmed (content : List Char) (row : List Char)
    (hrow : row ∈ map_section content) : pstrip row = row := by
  have hrow' : row ∈ filterLines (((mapRawSlice content).splitOn '\n').drop 1) := hrow
  exact filterLines_trimmed _ row hrow'

/-- C1: for every input containing both a `__gfx__` and a `__map__`
marker, the header is generated, its pixel array has exactly 128 rows of
exactly 128 values each (extra gfx rows truncated, missing rows/columns
zero-padded), and its map array carries exactly 4096 entries (missing map
bytes zero-padded). -/
theorem claim1_fixed_sizes (content outName : List Char)
    (hg : strFind content gfxMark ≠ none) (hm : strFind content mapMark ≠ none) :
    (runConvert content outName).output = some (headerText content) ∧
    (pixelMatrix content).length = 128 ∧
    (∀ r ∈ pixelMatrix content, r.length = 128) ∧
    pixelBody content = rowsOut 0 (pixelMatrix content) ∧
    (mapEntries content).length = 4096 := by
  refine ⟨?_, pixelMatrix_length content, pixelMatrix_rows content,
    pixelBody_eq_rowsOut content, mapEntries_length content⟩
  have h1 : ¬ gfx_start content = -1 := by
    unfold gfx_start
    rw [findIdx_eq_neg_one_iff]
    exact hg
  have h2 : ¬ map_start content = -1 := by
    unfold map_start
    rw [findIdx_eq_neg_one_iff]
    exact hm
  unfold runConvert
  rw [if_neg h1, if_neg h2]

/-- Witness for C1 at a concrete two-line cartridge. -/
theorem claim1_fixed_sizes_w :
    strFind (str "__gfx__\n0f\n__map__\nab") gfxMark ≠ none ∧
    (mapEntries (str "__gfx__\n0f\n__map__\nab")).length = 4096 :=
  ⟨by decide,
   (claim1_fixed_sizes (str "__gfx__\n0f\n__map__\nab") (str "out.h")
     (by decide) (by decide)).2.2.2.2⟩

/-- C2 counterexample: on an input with no `__gfx__` marker the program
writes nothing to standard error and exits with status 0 (the error
message goes to standard output), so the claimed stderr/nonzero-exit
behaviour is refuted; the output file is indeed left untouched. -/
theorem claim2_counterexample :
    (runConvert (str "no markers here") (str "out.h")).stderrLines = [] ∧
    (runConvert (str "no markers here") (str "out.h")).exitCode = 0 ∧
    (runConvert (str "no markers here") (str "out.h")).output = none ∧
    (runConvert (str "no markers here") (str "out.h")).stdoutLines =
      [str "Error: __gfx__ section not found"] := by
  refine ⟨by decide, by decide, by decide, by decide⟩

/-- C2 as amended: when `__gfx__` or `__map__` is absent the program
prints an error naming the missing section to standard output, writes
nothing to standard error, the process exits with status 0, and the
output file is never created, opened or modified. -/
theorem claim2_missing_section (content outName : List Char)
    (h : strFind content gfxMark = none ∨ strFind content mapMark = none) :
    (runConvert content outName).output = none ∧
    (runConvert content outName).stderrLines = [] ∧
    (runConvert content outName).exitCode = 0 ∧
    (strFind content gfxMark = none →
      (runConvert content outName).stdoutLines = [str "Error: __gfx__ section not found"]) ∧
    (strFind content gfxMark ≠ none →
      (runConvert content outName).stdoutLines = [str "Error: __map__ section not found"]) := by
  by_cases hg : strFind content gfxMark = none
  · have h1 : gfx_start content = -1 := by
      unfold gfx_start
      rw [findIdx_eq_neg_one_iff]
      exact hg
    unfold runConvert
    rw [if_pos h1]
    exact ⟨rfl, rfl, rfl, fun _ => rfl, fun hcon => absurd hg hcon⟩
  · have hm : strFind content mapMark = none := h.resolve_left hg
    have h1 : ¬ gfx_start content = -1 := by
      unfold gfx_start
      rw [findIdx_eq_neg_one_iff]
      exact hg
    have h2 : map_start content = -1 := by
      unfold map_start
      rw [findIdx_eq_neg_one_iff]
      exact hm
    unfold runConvert
    rw [if_neg h1, if_pos h2]
    exact ⟨rfl, rfl, rfl, fun hcon => absurd hcon hg, fun _ => rfl⟩

/-- Witness for the amended C2 at a concrete gfx-less input. -/
theorem claim2_missing_section_w :
    (runConvert (str "__map__ only") (str "out.h")).output = none :=
  (claim2_missing_section (str "__map__ only") (str "out.h") (Or.inl (by decide))).1

/-- C3: when both required markers are present, the raw GFX slice runs
from the first `__gfx__` occurrence to the first `__label__` occurrence
when that one exists and precedes `__map__`, otherwise to the first
`__map__` occurrence; the raw MAP slice runs from the first `__map__`
occurrence to the first `__sfx__` occurrence when present, otherwise to
end-of-document. -/
theorem claim3_section_bounds (content : List Char) (g m : Nat)
    (hg : strFind content gfxMark = some g) (hm : strFind content mapMark = some m) :
    gfxRawSlice content =
      (match strFind content labelMark with
       | some l =>
         if l < m then pySlice content (g : Int) (l : Int)
         else pySlice content (g : Int) (m : Int)
       | none => pySlice content (g : Int) (m : Int)) ∧
    mapRawSlice content =
      (match strFind content sfxMark with
       | some s0 => pySlice content (m : Int) (s0 : Int)
       | none => pySlice content (m : Int) (content.length : Int)) := by
  have hgs : gfx_start content = (g : Int) := by
    unfold gfx_start
    exact findIdx_eq_of_some _ _ _ hg
  have hms : map_start content = (m : Int) := by
    unfold map_start
    exact findIdx_eq_of_some _ _ _ hm
  constructor
  · unfold gfxRawSlice gfx_end
    cases hl : strFind content labelMark with
    | none =>
      have hls : label_start content = -1 := by
        unfold label_start
        rw [findIdx_eq_neg_one_iff]
        exact hl
      rw [if_neg (fun hcon => hcon.1 hls), hgs, hms]
    | some l =>
      have hls : label_start content = (l : Int) := by
        unfold label_start
        exact findIdx_eq_of_some _ _ _ hl
      by_cases hlm : l < m
      · have hcond : label_start content ≠ -1 ∧ label_start content < map_start content := by
          rw [hls, hms]
          constructor
          · omega
          · exact_mod_cast hlm
        rw [if_pos hcond, hls, hgs]
        simp [hlm]
      · have hcond : ¬(label_start content ≠ -1 ∧ label_start content < map_start content) := by
          rw [hls, hms]
          intro hcon
          exact hlm (by exact_mod_cast hcon.2)
        rw [if_neg hcond, hgs, hms]
        simp [hlm]
  · unfold mapRawSlice map_end
    cases hs : strFind content sfxMark with
    | none =>
      have hss : sfx_start content = -1 := by
        unfold sfx_start
        rw [findIdx_eq_neg_one_iff]
        exact hs
      rw [if_neg (fun hcon => hcon hss), hms]
    | some s0 =>
      have hss : sfx_start content = (s0 : Int) := by
        unfold sfx_start
        exact findIdx_eq_of_some _ _ _ hs
      have hcond : sfx_start content ≠ -1 := by
        rw [hss]
        omega
      rw [if_pos hcond, hss, hms]

/-- Witness for C3 at a cartridge containing all four markers in order. -/
theorem claim3_section_bounds_w :
    gfxRawSlice (str "__gfx__\naa\n__label__\nxx\n__map__\nbb\n__sfx__\ncc") =
      pySlice (str "__gfx__\naa\n__label__\nxx\n__map__\nbb\n__sfx__\ncc") (0 : Int) (11 : Int) := by
  have h := claim3_section_bounds (str "__gfx__\naa\n__label__\nxx\n__map__\nbb\n__sfx__\ncc")
    0 24 (by decide) (by decide)
  rw [h.1]
  decide

/-- C4 counterexample: the token `+f` consists not of two hex digits,
yet the encoder emits 15 for it (Python's base-16 parse accepts a leading
sign), not the claimed 0. -/
theorem claim4_counterexample :
    mapBytesRaw (str "__gfx__\n0\n__map__\n+f") = [(15 : Int)] ∧
    isHexDigitB '+' = false := by
  refine ⟨by decide, by decide⟩

/-- C4 as amended: each complete two-character token contributes exactly
one value and never aborts the run; a token of two hex digits contributes
its base-16 value, a byte in [0, 255]; a token rejected by Python's
base-16 parse contributes 0; but the parse also accepts signed or
whitespace-padded single digits, so some non-hex tokens contribute
nonzero (even negative) values, e.g. `+f` parses to 15. -/
theorem claim4_token_decode (c1 c2 : Char) (rest : List Char) :
    pairBytes (c1 :: c2 :: rest) = (pyInt2 c1 c2).getD 0 :: pairBytes rest ∧
    (isHexDigitB c1 = true → isHexDigitB c2 = true →
      pyInt2 c1 c2 = some ((16 * (hexVal c1).getD 0 + (hexVal c2).getD 0 : Nat) : Int) ∧
      0 ≤ (pyInt2 c1 c2).getD 0 ∧ (pyInt2 c1 c2).getD 0 ≤ 255) ∧
    (pyInt2 c1 c2 = none → (pyInt2 c1 c2).getD 0 = 0) ∧
    pyInt2 '+' 'f' = some 15 := by
  refine ⟨rfl, fun h1 h2 => pyInt2_of_digits c1 c2 h1 h2, fun h => by rw [h]; rfl, by decide⟩

/-- Witness for the amended C4 on the hex token `ab`. -/
theorem claim4_token_decode_w : pairBytes (str "ab") = [(171 : Int)] := by
  have h := claim4_token_decode 'a' 'b' []
  have h2 := (h.2.1 (by decide) (by decide)).1
  rw [show str "ab" = 'a' :: 'b' :: [] from rfl, h.1, h2]
  decide

/-- C5 counterexample: the Arabic-Indic digit U+0663 is not a hex digit,
yet Python's `int(c, 16)` accepts Unicode decimal digits, so the pixel
decoder produces 3 for it — not the claimed 0. -/
theorem claim5_counterexample :
    isHexDigitB (Char.ofNat 0x663) = false ∧
    (hexVal (Char.ofNat 0x663)).getD 0 = 3 ∧
    (pixelsOfRow [Char.ofNat 0x663])[0]? = some 3 := by
  refine ⟨by decide, by decide, by decide⟩

/-- C5 as amended: each character of a gfx-section row is decoded by
Python's single-character base-16 parse — an ASCII hex digit yields its
value, a Unicode decimal digit yields its decimal value (at most 9), so
some non-hex characters decode to nonzero values (e.g. U+0663 yields 3),
and a character the parse rejects decodes to 0 — without halting the run;
the row is right-padded with 0 to length 128, and every entry of the
emitted 128-by-128 pixel matrix lies in [0, 15]. -/
theorem claim5_pixel_decode (content row : List Char) (j : Nat) (c : Char)
    (hrow : row ∈ gfx_section content) (hj : j < 128) :
    (pixelsOfRow row).length = 128 ∧
    (row[j]? = some c → (pixelsOfRow row)[j]? = some ((hexVal c).getD 0)) ∧
    (row.length ≤ j → (pixelsOfRow row)[j]? = some 0) ∧
    (isHexDigitB c = true → ∃ v, hexVal c = some v ∧ v ≤ 15) ∧
    (∀ d, decDigitVal c = some d → d ≤ 9) ∧
    (hexVal c = none → (hexVal c).getD 0 = 0) ∧
    (∀ r ∈ pixelMatrix content, ∀ v ∈ r, v ≤ 15) :=
  ⟨pixelsOfRow_length row,
   fun hc => pixelsOfRow_entry row j c hj hc,
   fun hlen => pixelsOfRow_pad row j hj hlen,
   fun hd => hexVal_of_digit c hd,
   fun d hd => decDigitVal_le c d hd,
   fun hn => by rw [hn]; rfl,
   pixelMatrix_le content⟩

/-- Witness for the amended C5: in row `0fz` the character `z`, rejected
by the parse, decodes to pixel 0 at position 2. -/
theorem claim5_pixel_decode_w : (pixelsOfRow (str "0fz"))[2]? = some 0 := by
  have h := claim5_pixel_decode (str "__gfx__\n0fz\n__map__\nx") (str "0fz") 2 'z'
    (by decide) (by decide)
  rw [h.2.1 (by decide), h.2.2.2.2.2.1 (by decide)]

/-- C6: the line filter drops the leading marker line (the `[1:]` on the
split slice), keeps exactly the lines that are nonempty after trimming
and do not themselves start with `__`, preserves their relative order,
and emits each kept line trimmed. -/
theorem claim6_line_filter (raw : List Char) :
    sectionLines raw = (((raw.splitOn '\n').drop 1).filter keepLine).map pstrip ∧
    (∀ l : List Char, keepLine l = false ↔ (pstrip l = [] ∨ startsUU l = true)) ∧
    (sectionLines raw).Sublist (((raw.splitOn '\n').drop 1).map pstrip) ∧
    (∀ out ∈ sectionLines raw, pstrip out = out) :=
  ⟨rfl, keepLine_false_iff, filterLines_sublist _, filterLines_trimmed _⟩

/-- Witness for C6 on a slice with a marker line, blanks and padding. -/
theorem claim6_line_filter_w :
    sectionLines (str "__map__\n aa \n\n__gff__\nbb") = [str "aa", str "bb"] := by
  have h := claim6_line_filter (str "__map__\n aa \n\n__gff__\nbb")
  rw [h.1]
  decide

/-- C7: a map-section line with an odd number of characters decodes
exactly the bytes of its complete two-character pairs; the trailing
unpaired character contributes nothing. -/
theorem claim7_odd_line (content row : List Char) (hrow : row ∈ map_section content)
    (hodd : row.length % 2 = 1) :
    lineBytes row = pairBytes row.dropLast ∧
    (lineBytes row).length = row.length / 2 := by
  have hstrip : pstrip row = row := map_section_trimmed content row hrow
  unfold lineBytes
  rw [hstrip]
  exact ⟨pairBytes_dropLast row hodd, pairBytes_length row⟩

/-- Witness for C7 on the odd map line `abc`. -/
theorem claim7_odd_line_w : lineBytes (str "abc") = [(171 : Int)] := by
  have h := claim7_odd_line (str "__gfx__\nz\n__map__\nabc") (str "abc")
    (by decide) (by decide)
  rw [h.1]
  decide

/-- C8 counterexample: the map line `-1` decodes to the byte value -1
(Python's base-16 parse accepts the sign), which renders as `0x-1` — not
a `0x`-prefixed two-hex-digit value — so the claimed universal value
format is refuted. -/
theorem claim8_counterexample :
    mapBytesRaw (str "__gfx__\n0\n__map__\n-1") = [(-1 : Int)] ∧
    ((mapChunk (str "__gfx__\n0\n__map__\n-1") 0).map pyHexLit)[0]? = some (str "0x-1") ∧
    isHexByteLit (str "0x-1") = false := by
  refine ⟨by decide, by decide, by decide⟩

/-- C8 as amended: the pixel body renders the 128 matrix rows in order,
each row brace-enclosed and comma-joined with a comma after every row but
the last; the map body renders exactly 256 lines of 16 comma-joined
values each, with a comma after every line but the last; and each value
is a lowercase `0x`-prefixed two-hex-digit literal provided every decoded
map byte lies in [0, 255] (a negative byte, reachable via a signed token
such as `-1`, instead renders with a minus sign). -/
theorem claim8_render (content : List Char)
    (hb : ∀ b ∈ mapBytesRaw content, 0 ≤ b ∧ b ≤ 255) :
    pixelBody content = rowsOut 0 (pixelMatrix content) ∧
    (pixelMatrix content).length = 128 ∧
    (∀ k ps, renderRow k ps =
      str "    \x7b" ++ joinSep (str ",") (ps.map natDec) ++ str "\x7d" ++
        (if k < 127 then str "," else []) ++ str "\n") ∧
    mapBody content = ((List.range 256).map (mapLine content)).flatten ∧
    ((List.range 256).map (mapLine content)).length = 256 ∧
    (∀ k, mapLine content k =
      str "    " ++ joinSep (str ",") ((mapChunk content k).map pyHexLit) ++
        (if k < 255 then str "," else []) ++ str "\n") ∧
    (∀ k, k < 256 → (mapChunk content k).length = 16) ∧
    (∀ k, ∀ s0 ∈ (mapChunk content k).map pyHexLit, isHexByteLit s0 = true) := by
  refine ⟨pixelBody_eq_rowsOut content, pixelMatrix_length content,
    fun _ _ => rfl, rfl, by simp, mapLine_comma content,
    fun k hk => mapChunk_length content k hk, ?_⟩
  intro k s0 hs0
  simp only [List.mem_map] at hs0
  obtain ⟨b, hbm, rfl⟩ := hs0
  have hbp : b ∈ mapBytesPadded content := mapChunk_subset content k b hbm
  obtain ⟨h0, h1⟩ := mapBytesPadded_range content hb b hbp
  exact pyHexLit_byte b h0 h1

/-- Witness for the amended C8 at a concrete cartridge whose decoded map
bytes are all in range. -/
theorem claim8_render_w :
    (mapChunk (str "__gfx__\n0\n__map__\nab") 0).length = 16 := by
  have h := claim8_render (str "__gfx__\n0\n__map__\nab") (by decide)
  exact h.2.2.2.2.2.2.1 0 (by omega)

/-- C9: the conversion is a pure function of the input text — two runs on
the same unchanged content produce the same observable result, in
particular byte-identical output files. -/
theorem claim9_deterministic (content outName : List Char) (r1 r2 : RunResult)
    (h1 : r1 = runConvert content outName) (h2 : r2 = runConvert content outName) :
    r1 = r2 ∧ r1.output = r2.output := by
  subst h1
  subst h2
  exact ⟨rfl, rfl⟩

/-- Witness for C9 at a concrete input. -/
theorem claim9_deterministic_w :
    (runConvert (str "x") (str "o")).output = (runConvert (str "x") (str "o")).output :=
  (claim9_deterministic (str "x") (str "o") _ _ rfl rfl).2

/-- C10: the section locator matches markers at their first substring
occurrence anywhere in the document (not only at line starts), and
whenever the first `__sfx__` occurrence precedes the first `__map__`
occurrence, the extracted map section is empty and all 4096 emitted map
bytes are zero. -/
theorem claim10_sfx_before_map (content : List Char) (s0 m : Nat)
    (hs : strFind content sfxMark = some s0) (hm : strFind content mapMark = some m)
    (hlt : s0 < m) :
    prefixOf sfxMark (content.drop s0) = true ∧
    (∀ j, j < s0 → prefixOf sfxMark (content.drop j) = false) ∧
    map_section content = [] ∧
    mapEntries content = List.replicate 4096 (0 : Int) := by
  obtain ⟨h1, h2⟩ := strFind_first content sfxMark s0 hs
  have hms : map_start content = (m : Int) := by
    unfold map_start
    exact findIdx_eq_of_some _ _ _ hm
  have hss : sfx_start content = (s0 : Int) := by
    unfold sfx_start
    exact findIdx_eq_of_some _ _ _ hs
  have hend : map_end content = (s0 : Int) := by
    unfold map_end
    rw [if_pos (by rw [hss]; omega), hss]
  have hslice : mapRawSlice content = [] := by
    unfold mapRawSlice pySlice
    rw [hms, hend, Int.toNat_natCast, Int.toNat_natCast,
      show s0 - m = 0 by omega, List.take_zero]
  have hsec : map_section content = [] := by
    unfold map_section
    rw [hslice]
    rfl
  have hraw : mapBytesRaw content = [] := by
    unfold mapBytesRaw
    rw [hsec]
    rfl
  exact ⟨h1, h2, hsec, mapEntries_zero_of_empty content hraw⟩

/-- Witness for C10: `__sfx__` occurs mid-line before `__map__`, so the
map section following `__map__` is ignored and all map bytes are zero. -/
theorem claim10_sfx_before_map_w :
    mapEntries (str "__gfx__\nab\nx__sfx__y\n__map__\n12") = List.replicate 4096 (0 : Int) :=
  (claim10_sfx_before_map (str "__gfx__\nab\nx__sfx__y\n__map__\n12") 12 21
    (by decide) (by decide) (by decide)).2.2.2

end ConvertP8
